import Mathlib

/-!
Verification of the news-recommendation backend services.

Shallow embedding conventions:
* Python floats are modelled as exact rationals (`ℚ`); every arithmetic
  step below mirrors the source's operation order, so equalities proved
  here correspond to bit-identical float computations on both sides.
* Python `Optional` fields become `Option`; Python truthiness of an
  optional numeric/string/list value (`if self.x:`) is `truthy*` below
  (non-`None` and nonzero / nonempty).
* Timestamps are seconds; a Python `datetime` is a wall-clock second
  count plus an optional UTC offset (`none` = naive).
* Redis is a partial map updated functionally; database tables are lists
  of rows.
-/

/-! ## Behavior model (`app/models/behavior.py`) -/

/-- The fields of `UserBehavior` consumed by `engagement_weight`. -/
structure Behavior where
  behavior_type : String
  duration : Option ℚ
  read_percentage : Option ℚ
deriving DecidableEq

/-- Python truthiness of an optional float column: `if self.x:` is taken
only when the value is non-`None` and nonzero. -/
def truthyRat (o : Option ℚ) : Bool :=
  match o with
  | none => false
  | some q => q != 0

/-- The `weights` dict lookup with default 0.1
(`weights.get(self.behavior_type, 0.1)`). -/
def base_weight (t : String) : ℚ :=
  if t = "impression" then 0.1
  else if t = "click" then 1.0
  else if t = "read" then 2.0
  else if t = "like" then 3.0
  else if t = "share" then 4.0
  else if t = "comment" then 3.5
  else if t = "bookmark" then 3.0
  else 0.1

/-- The read-percentage block of `engagement_weight`, reached only when the
duration block did not return early. -/
def rp_adjust (b : Behavior) (bw : ℚ) : ℚ :=
  if truthyRat b.read_percentage then
    let rp := b.read_percentage.getD 0
    if rp > 80 then bw * 1.5
    else if rp < 20 then bw * 0.5
    else bw
  else bw

/-- `UserBehavior.engagement_weight`: base weight by type; if the type is
`read` and `duration` is truthy, an early `return` applies exactly one
duration multiplier when one of the three conditions fires; otherwise
control falls through to the read-percentage block. -/
def engagement_weight (b : Behavior) : ℚ :=
  let bw := base_weight b.behavior_type
  if b.behavior_type = "read" && truthyRat b.duration then
    let d := b.duration.getD 0
    if d > 300 then bw * 2.0
    else if d > 120 then bw * 1.5
    else if d < 10 then bw * 0.3
    else rp_adjust b bw
  else rp_adjust b bw

/-- Claim C1's reference definition of the engagement weight, written from
the claim's words: a duration multiplier (for `read` with a duration
present) and a read-percentage multiplier (whenever `read_percentage` is
present), the two compounding when both conditions hold. -/
def engagement_weight_spec_C1 (b : Behavior) : ℚ :=
  let bw := base_weight b.behavior_type
  let dmul : ℚ :=
    match b.duration with
    | some d =>
      if b.behavior_type = "read" then
        if d > 300 then 2.0 else if d > 120 then 1.5 else if d < 10 then 0.3 else 1
      else 1
    | none => 1
  let rmul : ℚ :=
    match b.read_percentage with
    | some rp => if rp > 80 then 1.5 else if rp < 20 then 0.5 else 1
    | none => 1
  bw * dmul * rmul

/-- The duration multiplier of the amended claim C1: defined (and applied)
only when one of the three conditions fires, checked in order. -/
def duration_multiplier (d : ℚ) : Option ℚ :=
  if d > 300 then some 2.0
  else if d > 120 then some 1.5
  else if d < 10 then some 0.3
  else none

/-- The read-percentage multiplier of the amended claim C1. -/
def read_percentage_multiplier (rp : ℚ) : Option ℚ :=
  if rp > 80 then some 1.5
  else if rp < 20 then some 0.5
  else none

/-- Amended claim C1's reference definition: at most one multiplier is
applied; the duration multiplier (for a truthy duration on a `read`)
takes precedence, and the read-percentage multiplier (for a truthy
`read_percentage`) applies only when no duration multiplier fired. -/
def engagement_weight_amended_spec (b : Behavior) : ℚ :=
  let bw := base_weight b.behavior_type
  let dm : Option ℚ :=
    if b.behavior_type = "read" && truthyRat b.duration then
      duration_multiplier (b.duration.getD 0)
    else none
  let rm : Option ℚ :=
    if truthyRat b.read_percentage then
      read_percentage_multiplier (b.read_percentage.getD 0)
    else none
  match dm with
  | some m => bw * m
  | none =>
    match rm with
    | some m => bw * m
    | none => bw

/-! ## Recommendation scoring (`recommendation_service.py`) -/

/-- A Python `datetime`: wall-clock seconds plus an optional UTC offset in
seconds (`none` = naive datetime). -/
structure PyDateTime where
  seconds : ℤ
  tz : Option ℤ
deriving DecidableEq

/-- UTC seconds of a datetime; a naive value is reinterpreted as UTC
(`published_at.replace(tzinfo=timezone.utc)` adds offset 0). -/
def utcSeconds (t : PyDateTime) : ℤ :=
  t.seconds - t.tz.getD 0

/-- The fields of a `News` row consumed by the services verified here. -/
structure News where
  id : ℕ
  title : String
  title_zh : Option String
  content : String
  summary : Option String
  source : String
  language : String
  category_id : ℕ
  tags : List String
  is_published : Bool
  is_featured : Bool
  is_breaking : Bool
  published_at : PyDateTime
  created_at : ℤ
  quality_score : ℚ
  popularity_score : ℚ
  trending_score : ℚ
  view_count : ℕ
  like_count : ℤ
deriving DecidableEq

/-- `RecommendationService._calculate_news_score`, with `now` the current
UTC time in seconds. -/
def calculate_news_score (news : News) (strategy : String) (now : ℤ) : ℚ :=
  let strategyWeight : ℚ :=
    if strategy = "content" then 1.0
    else if strategy = "collaborative" then 1.2
    else if strategy = "hot" then 0.8
    else if strategy = "featured" then 0.9
    else if strategy = "fresh" then 0.6
    else 0.5
  let base0 : ℚ := 0.0
  let base1 := base0 + strategyWeight
  let base2 := base1 + news.popularity_score * 0.3
  let base3 := base2 + news.trending_score * 0.3
  let base4 := base3 + news.quality_score * 0.2
  let hoursOld : ℚ := ((now - utcSeconds news.published_at : ℤ) : ℚ) / 3600
  let freshnessScore := max 0 (1 - hoursOld / 72)
  let base5 := base4 + freshnessScore * 0.2
  let base6 := if news.is_breaking then base5 * 1.5 else base5
  if news.is_featured then base6 * 1.2 else base6

/-- Claim C4's reference definition of the ranking score, written from the
claim's words: strategy-weight table lookup (default 0.5) plus weighted
popularity, trending, quality and freshness terms, then the breaking and
featured multipliers compounding. -/
def news_score_spec (news : News) (strategy : String) (now : ℤ) : ℚ :=
  let table : List (String × ℚ) :=
    [("content", 1.0), ("collaborative", 1.2), ("hot", 0.8),
     ("featured", 0.9), ("fresh", 0.6)]
  let w := (table.lookup strategy).getD 0.5
  let hoursOld : ℚ := ((now - utcSeconds news.published_at : ℤ) : ℚ) / 3600
  let freshnessScore := max 0 (1 - hoursOld / 72)
  let s := w + news.popularity_score * 0.3 + news.trending_score * 0.3 +
    news.quality_score * 0.2 + freshnessScore * 0.2
  s * (if news.is_breaking then 1.5 else 1) * (if news.is_featured then 1.2 else 1)

/-! ## Authentication tokens (`auth_service.py`) -/

/-- A decoded JWT claim set. HS256 signing with a fixed key is
deterministic and the payload is recovered by decoding, so token strings
are in bijection with well-formed claim sets; token-string equality is
claim-set equality. `exp` is an epoch expiry in whole seconds
(the encoder truncates sub-second precision). -/
structure Token where
  sub : String
  exp : ℕ
  typ : String
deriving DecidableEq

/-- The refresh-token slots of the Redis store, keyed by string. -/
abbrev RedisTokens : Type := String → Option Token

/-- `settings.REFRESH_TOKEN_EXPIRE_DAYS * 24 * 3600` with the default of
7 days. -/
def REFRESH_TOKEN_EXPIRE_SECONDS : ℕ := 7 * 24 * 3600

/-- `AuthService._create_token_internal` for the refresh path. -/
def create_token_internal (email : String) (now lifetime : ℕ) (token_type : String) : Token :=
  { sub := email, exp := now + lifetime, typ := token_type }

/-- `AuthService.create_refresh_token`: issues the token and stores it
under `refresh_token:` ++ email (the `setex` TTL equals the token
lifetime, so the entry never outlives the token's own expiry). -/
def create_refresh_token (email : String) (now : ℕ) (store : RedisTokens) :
    Token × RedisTokens :=
  let t := create_token_internal email now REFRESH_TOKEN_EXPIRE_SECONDS "refresh"
  (t, fun k => if k = "refresh_token:" ++ email then some t else store k)

/-- `AuthService.verify_token`: decoding rejects an expired token
(`JWTError`), then the type discriminator must match. -/
def verify_token (token : Token) (token_type : String) (now : ℕ) : Option String :=
  if token.exp ≤ now then none
  else if token.typ = token_type then some token.sub
  else none

/-- `AuthService.verify_refresh_token`: JWT verification first, then the
presented token must equal the value currently stored for its subject. -/
def verify_refresh_token (token : Token) (store : RedisTokens) (now : ℕ) :
    Option String :=
  match verify_token token "refresh" now with
  | none => none
  | some email =>
    if store ("refresh_token:" ++ email) = some token then some email else none

/-! ## Password hashing (`auth_service.py`)

Passwords are modelled by their UTF-8 byte sequences (`List ℕ`);
`len(password.encode(...))` is the list length.  The SHA-256 hex digest is
an arbitrary function parameter: the round-trip holds for every choice,
which is exactly the claim's point that the two paths apply the identical
pre-digest. -/

/-- Modelled from the spec: the bcrypt primitive (external library, not in
the repository) silently truncates its input beyond 72 bytes; a hash
records the salt and the (truncated) password material. -/
def bcrypt_hashpw (password : List ℕ) (salt : ℕ) : ℕ × List ℕ :=
  (salt, password.take 72)

/-- Modelled from the spec: bcrypt verification recomputes the hash with
the stored salt and compares. -/
def bcrypt_checkpw (password : List ℕ) (hashed : ℕ × List ℕ) : Bool :=
  bcrypt_hashpw password hashed.1 == hashed

/-- `AuthService.get_password_hash`: SHA-256 pre-digest (hex-encoded, hence
64 bytes) for inputs over 72 bytes, then bcrypt. -/
def get_password_hash (sha256hex : List ℕ → List ℕ) (password : List ℕ)
    (salt : ℕ) : ℕ × List ℕ :=
  let password_bytes := if 72 < password.length then sha256hex password else password
  bcrypt_hashpw password_bytes salt

/-- `AuthService.verify_password`: the identical pre-digest step, then
bcrypt comparison. -/
def verify_password (sha256hex : List ℕ → List ℕ) (plain : List ℕ)
    (hashed : ℕ × List ℕ) : Bool :=
  let password_to_check := if 72 < plain.length then sha256hex plain else plain
  bcrypt_checkpw password_to_check hashed

/-! ## Like toggle (`news_service.py`) -/

/-- A `user_behaviors` row, restricted to the columns `toggle_like`
consults. -/
structure BehaviorRow where
  user_id : ℕ
  news_id : ℕ
  behavior_type : String
deriving DecidableEq

/-- The relational state `toggle_like` reads and writes. -/
structure NewsDB where
  news : List News
  behaviors : List BehaviorRow
deriving DecidableEq

/-- The dict returned by `toggle_like`. -/
structure ToggleLikeResult where
  news_id : ℕ
  liked : Bool
  like_count : ℤ
deriving DecidableEq

/-- `NewsService.get_news_by_id` without the view-count side effect
(`increment_view=False`), as `toggle_like` calls it. -/
def get_news_by_id (db : NewsDB) (nid : ℕ) : Option News :=
  db.news.find? (fun n => n.id == nid)

/-- The filter of the existing-like query in `toggle_like`. -/
def isLikeRow (uid nid : ℕ) (b : BehaviorRow) : Bool :=
  b.user_id == uid && b.news_id == nid && b.behavior_type == "like"

/-- Updates the `like_count` of the first news row with the given id (the
ORM mutates the single object returned by `.first()`). -/
def updateNewsCount : List News → ℕ → ℤ → List News
  | [], _, _ => []
  | n :: rest, nid, c =>
    if n.id == nid then { n with like_count := c } :: rest
    else n :: updateNewsCount rest nid c

/-- `NewsService.toggle_like`: `none` models the 404 raise; otherwise the
new state and response dict. -/
def toggle_like (db : NewsDB) (nid uid : ℕ) : Option (NewsDB × ToggleLikeResult) :=
  match get_news_by_id db nid with
  | none => none
  | some news =>
    match db.behaviors.find? (isLikeRow uid nid) with
    | some _ =>
      let newCount := max 0 (news.like_count - 1)
      some ({ news := updateNewsCount db.news nid newCount,
              behaviors := db.behaviors.eraseP (isLikeRow uid nid) },
            { news_id := nid, liked := false, like_count := newCount })
    | none =>
      let newCount := news.like_count + 1
      some ({ news := updateNewsCount db.news nid newCount,
              behaviors := db.behaviors ++ [⟨uid, nid, "like"⟩] },
            { news_id := nid, liked := true, like_count := newCount })

/-! ## Candidate deduplication (`recommendation_service.py`) -/

/-- `RecommendationService._deduplicate_candidates`, generalized over the
`seen_news_ids` set accumulated so far; candidates are (news id,
strategy tag) pairs. -/
def dedupAux : List ℕ → List (ℕ × String) → List (ℕ × String)
  | _, [] => []
  | seen, c :: rest =>
    if c.1 ∈ seen then dedupAux seen rest
    else c :: dedupAux (c.1 :: seen) rest

/-- `RecommendationService._deduplicate_candidates` (empty initial set). -/
def deduplicate_candidates (candidates : List (ℕ × String)) : List (ℕ × String) :=
  dedupAux [] candidates

/-! ## Batch behavior tracking (`tracking_service.py`)

Each batch item carries, besides an abstract payload, the two points at
which the `try` body can raise: while building/adding the row
(before `processed += 1`) and inside `_update_realtime_stats`
(after `processed += 1`). -/

structure BatchItem where
  payload : ℕ
  add_raises : Bool
  stats_raises : Bool
deriving DecidableEq

structure BatchState where
  processed : ℕ
  failed : ℕ
  failed_indices : List ℕ
  pending_rows : List ℕ
deriving DecidableEq

/-- The dict returned by `track_behaviors_batch`, together with what the
final conditional commit persisted. -/
structure BatchResult where
  success : Bool
  total_processed : ℕ
  total_failed : ℕ
  failed_indices : List ℕ
  committed : Bool
  committed_rows : List ℕ
deriving DecidableEq

/-- The `for idx, behavior_item in enumerate(...)` loop of
`track_behaviors_batch`: a raise before the increment counts the item
failed only; a raise in the stats update happens after `db.add` and
`processed += 1`, and the `except` then also counts it failed. -/
def batchAux : ℕ → List BatchItem → BatchState → BatchState
  | _, [], st => st
  | idx, it :: rest, st =>
    let st' :=
      if it.add_raises then
        { st with failed := st.failed + 1,
                  failed_indices := st.failed_indices ++ [idx] }
      else
        let stAdded := { st with processed := st.processed + 1,
                                 pending_rows := st.pending_rows ++ [it.payload] }
        if it.stats_raises then
          { stAdded with failed := stAdded.failed + 1,
                         failed_indices := stAdded.failed_indices ++ [idx] }
        else stAdded
    batchAux (idx + 1) rest st'

/-- `TrackingService.track_behaviors_batch`. -/
def track_behaviors_batch (items : List BatchItem) : BatchResult :=
  let st := batchAux 0 items ⟨0, 0, [], []⟩
  { success := st.failed == 0,
    total_processed := st.processed,
    total_failed := st.failed,
    failed_indices := st.failed_indices,
    committed := decide (0 < st.processed),
    committed_rows := if 0 < st.processed then st.pending_rows else [] }

/-! ## Category filters (`news_service.py`, `recommendation_service.py`) -/

/-- Python truthiness of an optional int (`if search_request.category_id:`). -/
def truthyNat (o : Option ℕ) : Bool :=
  match o with
  | none => false
  | some n => n != 0

/-- Python truthiness of an optional string. -/
def truthyStr (o : Option String) : Bool :=
  match o with
  | none => false
  | some s => s != ""

/-- Python truthiness of an optional list. -/
def truthyList {α : Type} (o : Option (List α)) : Bool :=
  match o with
  | none => false
  | some l => !l.isEmpty

/-- SQL `column ILIKE '%term%'`: case-insensitive substring match, false on
a NULL column. -/
def ilike (field : Option String) (term : String) : Bool :=
  match field with
  | none => false
  | some s => decide (term.toLower.toList <:+: s.toLower.toList)

/-- PostgreSQL array overlap (`News.tags.overlap`). -/
def tagsOverlap (tags : List String) (wanted : List String) : Bool :=
  tags.any (fun t => wanted.contains t)

/-- `NewsSearchRequest` with the fields `search_news` consults. -/
structure NewsSearchRequest where
  query : Option String
  category_id : Option ℕ
  categories : Option (List ℕ)
  tags : Option (List String)
  source : Option String
  sources : Option (List String)
  language : Option String
  is_featured : Option Bool
  is_breaking : Option Bool
  published_after : Option ℤ
  published_before : Option ℤ
  min_quality_score : Option ℚ
  min_popularity_score : Option ℚ
  sort_by : String
  sort_order : String
  page : ℕ
  page_size : ℕ

/-- The filter section of `NewsService.search_news`: each clause is applied
only when its request field is truthy (`is_featured`/`is_breaking` use an
explicit `is not None` check, date bounds are truthy whenever present). -/
def passes_filters (r : NewsSearchRequest) (n : News) : Bool :=
  n.is_published
  && (if truthyStr r.query then
        let term := r.query.getD ""
        ilike (some n.title) term || ilike n.title_zh term ||
        ilike (some n.content) term || ilike n.summary term
      else true)
  && (if truthyNat r.category_id then n.category_id == r.category_id.getD 0 else true)
  && (if truthyList r.categories then (r.categories.getD []).contains n.category_id else true)
  && (if truthyList r.tags then tagsOverlap n.tags (r.tags.getD []) else true)
  && (if truthyStr r.source then n.source == r.source.getD "" else true)
  && (if truthyList r.sources then (r.sources.getD []).contains n.source else true)
  && (if truthyStr r.language then n.language == r.language.getD "" else true)
  && (match r.is_featured with | some b => n.is_featured == b | none => true)
  && (match r.is_breaking with | some b => n.is_breaking == b | none => true)
  && (match r.published_after with
      | some t => decide (t ≤ utcSeconds n.published_at)
      | none => true)
  && (match r.published_before with
      | some t => decide (utcSeconds n.published_at ≤ t)
      | none => true)
  && (if truthyRat r.min_quality_score then decide (r.min_quality_score.getD 0 ≤ n.quality_score) else true)
  && (if truthyRat r.min_popularity_score then decide (r.min_popularity_score.getD 0 ≤ n.popularity_score) else true)

/-- The sort key chosen by `search_news`'s `sort_by` dispatch (default:
creation date). -/
def sortKey (sort_by : String) (n : News) : ℚ :=
  if sort_by = "published_at" then (utcSeconds n.published_at : ℚ)
  else if sort_by = "popularity_score" then n.popularity_score
  else if sort_by = "trending_score" then n.trending_score
  else if sort_by = "view_count" then (n.view_count : ℚ)
  else (n.created_at : ℚ)

/-- Stable insertion into a list ordered by `le`. -/
def insertOrdered (le : News → News → Bool) (n : News) : List News → List News
  | [] => [n]
  | m :: rest => if le m n then m :: insertOrdered le n rest else n :: m :: rest

/-- Stable sort modelling the database `ORDER BY`. -/
def sortNewsBy (le : News → News → Bool) : List News → List News
  | [] => []
  | n :: rest => insertOrdered le n (sortNewsBy le rest)

/-- The `order_by` step of `search_news` (descending by default). -/
def orderNews (r : NewsSearchRequest) (l : List News) : List News :=
  if r.sort_order = "desc" then
    sortNewsBy (fun a b => sortKey r.sort_by b ≤ sortKey r.sort_by a) l
  else
    sortNewsBy (fun a b => sortKey r.sort_by a ≤ sortKey r.sort_by b) l

/-- `NewsService.search_news` over a table of rows: filter, count, sort,
paginate; returns the page and the total match count. -/
def search_news (r : NewsSearchRequest) (db : List News) : List News × ℕ :=
  let filtered := db.filter (passes_filters r)
  let total := filtered.length
  let sorted := orderNews r filtered
  (List.take r.page_size (List.drop ((r.page - 1) * r.page_size) sorted), total)

/-- Descending order by trending score. -/
def byTrendingDesc : List News → List News :=
  sortNewsBy (fun a b => a.trending_score ≥ b.trending_score)

/-- Descending order by published date. -/
def byPublishedDesc : List News → List News :=
  sortNewsBy (fun a b => utcSeconds a.published_at ≥ utcSeconds b.published_at)

/-- `NewsService.get_trending_news` on a cache miss: lookback window from
the `time_thresholds` dict (default 1 day), published-only, optional
category filter, top `limit` by trending score. -/
def get_trending_news (db : List News) (category_id : Option ℕ)
    (time_range : String) (limit : ℕ) (now : ℤ) : List News :=
  let delta : ℤ :=
    if time_range = "1h" then 3600
    else if time_range = "6h" then 6 * 3600
    else if time_range = "24h" then 86400
    else if time_range = "7d" then 7 * 86400
    else if time_range = "30d" then 30 * 86400
    else 86400
  let threshold := now - delta
  let q := db.filter (fun n => n.is_published && decide (threshold ≤ utcSeconds n.published_at))
  let q := if truthyNat category_id then q.filter (fun n => n.category_id == category_id.getD 0) else q
  (byTrendingDesc q).take limit

/-- `RecommendationService._recall_hot_news` on a cache miss: published
within the last day, optional category filter, top `limit` by trending
score. -/
def recall_hot_news (db : List News) (category_id : Option ℕ) (limit : ℕ)
    (now : ℤ) : List News :=
  let time_threshold := now - 86400
  let q := db.filter (fun n => n.is_published && decide (time_threshold ≤ utcSeconds n.published_at))
  let q := if truthyNat category_id then q.filter (fun n => n.category_id == category_id.getD 0) else q
  (byTrendingDesc q).take limit

/-- `RecommendationService._recall_featured_news`. -/
def recall_featured_news (db : List News) (category_id : Option ℕ)
    (limit : ℕ) : List News :=
  let q := db.filter (fun n => n.is_published && n.is_featured)
  let q := if truthyNat category_id then q.filter (fun n => n.category_id == category_id.getD 0) else q
  (byPublishedDesc q).take limit

/-- `RecommendationService._recall_fresh_news`. -/
def recall_fresh_news (db : List News) (category_id : Option ℕ)
    (limit : ℕ) : List News :=
  let q := db.filter (fun n => n.is_published)
  let q := if truthyNat category_id then q.filter (fun n => n.category_id == category_id.getD 0) else q
  (byPublishedDesc q).take limit

/-- The profile fields `_recall_content_based` consults
(`preferred_categories` is a category-id-to-weight dict, modelled as an
association list in insertion order). -/
structure UserProfileM where
  preferred_categories : List (ℕ × ℚ)
  quality_threshold : Option ℚ

/-- Stable descending sort of preference entries by weight
(Python `sorted(..., key=..., reverse=True)` is stable). -/
def insertPrefDesc (p : ℕ × ℚ) : List (ℕ × ℚ) → List (ℕ × ℚ)
  | [] => [p]
  | q :: rest => if q.2 ≥ p.2 then q :: insertPrefDesc p rest else p :: q :: rest

def sortPrefsDesc : List (ℕ × ℚ) → List (ℕ × ℚ)
  | [] => []
  | p :: rest => insertPrefDesc p (sortPrefsDesc rest)

/-- `RecommendationService._recall_content_based`: top-3 preferred
categories by weight; falls back to hot recall when the preference map is
empty; optional category and quality-threshold filters; recency order. -/
def recall_content_based (profile : UserProfileM) (db : List News)
    (category_id : Option ℕ) (limit : ℕ) (now : ℤ) : List News :=
  if profile.preferred_categories.isEmpty then
    recall_hot_news db category_id limit now
  else
    let top_categories := (sortPrefsDesc profile.preferred_categories).take 3
    let category_ids := top_categories.map Prod.fst
    let q := db.filter (fun n => n.is_published && category_ids.contains n.category_id)
    let q := if truthyNat category_id then q.filter (fun n => n.category_id == category_id.getD 0) else q
    let q := if truthyRat profile.quality_threshold then
               q.filter (fun n => decide (profile.quality_threshold.getD 0 ≤ n.quality_score))
             else q
    (byPublishedDesc q).take limit

/-! ## Diversity re-ranking (`recommendation_service.py`)

`_apply_diversity_reranking` works on `(news, score, strategy)` triples;
only the news's category id and the score matter, so a candidate is the
pair of those. -/

structure Cand where
  category_id : ℕ
  score : ℚ
deriving DecidableEq

/-- The `category_counts` dict, as an association list in insertion
order. -/
abbrev CatCounts : Type := List (ℕ × ℕ)

/-- `category_counts.get(cat, 0)`. -/
def countsGet (m : CatCounts) (c : ℕ) : ℕ :=
  match List.find? (fun p => p.1 == c) m with
  | some p => p.2
  | none => 0

/-- `category_counts[cat] = category_counts.get(cat, 0) + 1`. -/
def countsBump : CatCounts → ℕ → CatCounts
  | [], c => [(c, 1)]
  | p :: rest, c =>
    if p.1 == c then (p.1, p.2 + 1) :: rest else p :: countsBump rest c

/-- The MMR score of one candidate: `lambda_param * score −
(1 − lambda_param) * category_penalty` with the default
`lambda_param = 0.5` used at the call site. -/
def mmr_score (counts : CatCounts) (c : Cand) : ℚ :=
  let category_penalty : ℚ := (countsGet counts c.category_id : ℚ) * 0.1
  0.5 * c.score - (1 - 0.5) * category_penalty

/-- The inner `for idx, ... in enumerate(remaining)` scan: running best
score (initially −1), best index (initially 0), strict improvement. -/
def selectAux (counts : CatCounts) : List Cand → ℚ → ℕ → ℕ → ℕ
  | [], _, bestIdx, _ => bestIdx
  | c :: rest, bestScore, bestIdx, idx =>
    if bestScore < mmr_score counts c then
      selectAux counts rest (mmr_score counts c) idx (idx + 1)
    else
      selectAux counts rest bestScore bestIdx (idx + 1)

/-- The index `best_idx` selected by one iteration of the `while` loop. -/
def selectBest (counts : CatCounts) (remaining : List Cand) : ℕ :=
  selectAux counts remaining (-1) 0 0

/-- The `while remaining` loop: pops the selected index, appends the
candidate, bumps its category count.  Structured on explicit fuel; each
iteration removes exactly one candidate, so fuel = initial length runs the
loop to completion (`mmrLoop_fuel_eq` below). -/
def mmrLoopFuel : ℕ → List Cand → CatCounts → List Cand
  | 0, _, _ => []
  | _ + 1, [], _ => []
  | fuel + 1, c₀ :: rest, counts =>
    let remaining := c₀ :: rest
    let i := selectBest counts remaining
    let c := remaining.getD i c₀
    c :: mmrLoopFuel fuel (remaining.eraseIdx i) (countsBump counts c.category_id)

/-- `RecommendationService._apply_diversity_reranking`: the identity on
lists of at most 10 candidates, otherwise the greedy MMR loop. -/
def apply_diversity_reranking (scored : List Cand) : List Cand :=
  if scored.length ≤ 10 then scored
  else mmrLoopFuel scored.length scored []

/-- Claim C5's greedy selection, read off the claim's words: at every step
some remaining candidate maximizing the MMR score is picked, appended, and
its category count bumped. -/
inductive GreedySel : CatCounts → List Cand → List Cand → Prop
  | nil (counts : CatCounts) : GreedySel counts [] []
  | step (counts : CatCounts) (remaining : List Cand) (rest : List Cand)
      (i : ℕ) (h : i < remaining.length)
      (hmax : ∀ r ∈ remaining,
        mmr_score counts r ≤ mmr_score counts (remaining.get ⟨i, h⟩))
      (htail : GreedySel (countsBump counts (remaining.get ⟨i, h⟩).category_id)
        (remaining.eraseIdx i) rest) :
      GreedySel counts remaining (remaining.get ⟨i, h⟩ :: rest)

/-- Amended claim C5's greedy selection: the picked candidate maximizes the
MMR score, except that when every remaining candidate's MMR score is at
most −1 (the scan's initial best score, never strictly beaten) the first
remaining candidate is picked instead. -/
inductive GreedySelA : CatCounts → List Cand → List Cand → Prop
  | nil (counts : CatCounts) : GreedySelA counts [] []
  | step (counts : CatCounts) (remaining : List Cand) (rest : List Cand)
      (i : ℕ) (h : i < remaining.length)
      (hsel : (∀ r ∈ remaining,
          mmr_score counts r ≤ mmr_score counts (remaining.get ⟨i, h⟩)) ∨
        ((∀ r ∈ remaining, mmr_score counts r ≤ -1) ∧ i = 0))
      (htail : GreedySelA (countsBump counts (remaining.get ⟨i, h⟩).category_id)
        (remaining.eraseIdx i) rest) :
      GreedySelA counts remaining (remaining.get ⟨i, h⟩ :: rest)

/-- The counterexample candidate list for claim C5: twelve candidates, all
of score −2 (so every MMR score is at most −1 from the start), the third
in a different category than the rest. -/
def exC5 : List Cand :=
  [⟨1, -2⟩, ⟨1, -2⟩, ⟨2, -2⟩, ⟨1, -2⟩, ⟨1, -2⟩, ⟨1, -2⟩,
   ⟨1, -2⟩, ⟨1, -2⟩, ⟨1, -2⟩, ⟨1, -2⟩, ⟨1, -2⟩, ⟨1, -2⟩]

/-- Descending score-sortedness of a candidate list, as a boolean. -/
def sortedByScoreDesc : List Cand → Bool
  | [] => true
  | [_] => true
  | a :: b :: rest => decide (b.score ≤ a.score) && sortedByScoreDesc (b :: rest)

/-! ## Concrete example inputs used by witnesses and counterexamples -/

/-- The empty Redis store. -/
def exStore0 : RedisTokens := fun _ => none

/-- A concrete news row with zero likes. -/
def exNewsA : News :=
  { id := 7, title := "t", title_zh := none, content := "c", summary := none,
    source := "s", language := "en", category_id := 1, tags := [],
    is_published := true, is_featured := false, is_breaking := false,
    published_at := ⟨0, some 0⟩, created_at := 0, quality_score := 0,
    popularity_score := 0, trending_score := 0, view_count := 0, like_count := 0 }

/-- A database holding that single article and no behaviors. -/
def exDB : NewsDB := { news := [exNewsA], behaviors := [] }

/-- A candidate list where one article (id 1) is emitted by two recall
strategies. -/
def exDedup : List (ℕ × String) := [(1, "featured"), (2, "hot"), (1, "hot")]

/-- The predicate for an item of a batch that raised (at either stage). -/
def batchItemFails (it : BatchItem) : Bool :=
  it.add_raises || it.stats_raises

/-! ## Theorems -/

/-- The strategy-weight table lookup agrees with an if-chain dispatch. -/
theorem lookup_strategy_weight (strategy : String) :
    (([("content", (1.0:ℚ)), ("collaborative", 1.2), ("hot", 0.8),
       ("featured", 0.9), ("fresh", 0.6)]).lookup strategy).getD 0.5 =
    (if strategy = "content" then 1.0
     else if strategy = "collaborative" then 1.2
     else if strategy = "hot" then 0.8
     else if strategy = "featured" then 0.9
     else if strategy = "fresh" then 0.6
     else (0.5 : ℚ)) := by
  simp only [List.lookup]
  split_ifs with h1 h2 h3 h4 h5 <;>
    first
      | rfl
      | (simp_all [beq_iff_eq, beq_eq_false_iff_ne])
      | (simp [beq_eq_false_iff_ne.mpr h1, beq_eq_false_iff_ne.mpr h2,
               beq_eq_false_iff_ne.mpr h3, beq_eq_false_iff_ne.mpr h4,
               beq_eq_false_iff_ne.mpr h5])

/-- C4: for every candidate article and recall strategy, the ranking score
computed by `_calculate_news_score` equals the spec's formula: strategy
weight (default 0.5) + popularity×0.3 + trending×0.3 + quality×0.2 +
freshness×0.2 with freshness = max(0, 1 − hours_since_published/72) and
naive timestamps treated as UTC, then ×1.5 if breaking and ×1.2 if
featured, compounding. -/
theorem calculate_news_score_correct (news : News) (strategy : String) (now : ℤ) :
    calculate_news_score news strategy now = news_score_spec news strategy now := by
  simp only [calculate_news_score, news_score_spec, lookup_strategy_weight]
  split_ifs <;> ring

/-- C7: password verification round-trips with password hashing for every
password byte sequence and salt, and for every choice of the SHA-256
pre-digest function — both paths apply the identical pre-digest to inputs
over 72 bytes before the bcrypt step. -/
theorem password_roundtrip (sha256hex : List ℕ → List ℕ) (p : List ℕ) (salt : ℕ) :
    verify_password sha256hex p (get_password_hash sha256hex p salt) = true := by
  simp only [verify_password, get_password_hash, bcrypt_checkpw, bcrypt_hashpw]
  split_ifs <;> simp

/-- C1 counterexample: a `read` behavior with duration 400 s and read
percentage 90 gets weight 2.0×2.0 = 4 from the code (the duration branch
returns early and the read-percentage multiplier is skipped), while the
claim's reference definition compounds the two multipliers to
2.0×2.0×1.5 = 6. -/
theorem engagement_weight_compound_counterexample :
    engagement_weight ⟨"read", some 400, some 90⟩ = 4 ∧
    engagement_weight_spec_C1 ⟨"read", some 400, some 90⟩ = 6 ∧
    engagement_weight ⟨"read", some 400, some 90⟩ ≠
      engagement_weight_spec_C1 ⟨"read", some 400, some 90⟩ := by
  have hbw : base_weight "read" = 2.0 := rfl
  refine ⟨?_, ?_, ?_⟩ <;>
    norm_num [engagement_weight, engagement_weight_spec_C1, truthyRat, rp_adjust, hbw]

/-- C1 (amended): the engagement weight is the base weight by type
multiplied by at most one multiplier — the duration multiplier when the
type is `read` with a truthy (present and nonzero) duration and one of
the three conditions fires (2.0 if >300, else 1.5 if >120, else 0.3 if
<10), and otherwise the read-percentage multiplier when
`read_percentage` is truthy (1.5 if >80, 0.5 if <20); the two
multipliers never compound.  Additionally, the claim's documented ratio
fact: a 400 s read weighs 2.0×2.0 and a 5 s read weighs 2.0×0.3. -/
theorem engagement_weight_amended_correct (b : Behavior) :
    engagement_weight b = engagement_weight_amended_spec b ∧
    engagement_weight ⟨"read", some 400, none⟩ = 2.0 * 2.0 ∧
    engagement_weight ⟨"read", some 5, none⟩ = 2.0 * 0.3 := by
  have hbw : base_weight "read" = 2.0 := rfl
  refine ⟨?_, ?_, ?_⟩
  · simp only [engagement_weight, engagement_weight_amended_spec, duration_multiplier,
      read_percentage_multiplier, rp_adjust]
    split_ifs <;> rfl
  · norm_num [engagement_weight, truthyRat, rp_adjust, hbw]
  · norm_num [engagement_weight, truthyRat, rp_adjust, hbw]

/-- C10: `engagement_weight` treats zero-valued optional metrics as absent:
a behavior whose duration is exactly 0 weighs the same as one with no
duration (no bounce multiplier despite 0 < 10), and one whose read
percentage is exactly 0 weighs the same as one with no read percentage
(no 0.5 multiplier despite 0 < 20), because both fields are tested for
truthiness rather than presence. -/
theorem engagement_weight_zero_treated_absent (b : Behavior) :
    (b.duration = some 0 → engagement_weight b = engagement_weight { b with duration := none }) ∧
    (b.read_percentage = some 0 →
      engagement_weight b = engagement_weight { b with read_percentage := none }) := by
  constructor
  · intro h
    simp [engagement_weight, truthyRat, h, rp_adjust]
  · intro h
    simp [engagement_weight, truthyRat, h, rp_adjust]

/-- C10 witness: both zero-as-absent facts at a concrete behavior. -/
theorem engagement_weight_zero_treated_absent_witness :
    engagement_weight ⟨"read", some 0, some 0⟩ = engagement_weight ⟨"read", none, some 0⟩ ∧
    engagement_weight ⟨"read", some 0, some 0⟩ = engagement_weight ⟨"read", some 0, none⟩ :=
  ⟨(engagement_weight_zero_treated_absent ⟨"read", some 0, some 0⟩).1 rfl,
   (engagement_weight_zero_treated_absent ⟨"read", some 0, some 0⟩).2 rfl⟩

/-- C2 counterexample: two refresh tokens issued for the same email at the
same whole second carry identical claim sets and are therefore the same
token string; after issuing A and then B, verifying A succeeds (A equals
the stored B), contradicting the claim that verifying A always fails. -/
theorem refresh_token_reissue_counterexample :
    (create_refresh_token "usr" 0 exStore0).1 =
      (create_refresh_token "usr" 0 (create_refresh_token "usr" 0 exStore0).2).1 ∧
    verify_refresh_token (create_refresh_token "usr" 0 exStore0).1
      (create_refresh_token "usr" 0 (create_refresh_token "usr" 0 exStore0).2).2 3600 ≠
      none := by
  refine ⟨rfl, ?_⟩
  decide

/-- Closed form of `verify_refresh_token`: a result exactly when the token
is an unexpired refresh-type token equal to the stored value for its
subject. -/
theorem verify_refresh_token_eq (token : Token) (store : RedisTokens) (now : ℕ) :
    verify_refresh_token token store now =
      if token.typ = "refresh" ∧ now < token.exp ∧
          store ("refresh_token:" ++ token.sub) = some token
      then some token.sub else none := by
  simp only [verify_refresh_token, verify_token]
  by_cases h1 : token.exp ≤ now <;>
    by_cases h2 : token.typ = "refresh" <;>
    by_cases h3 : store ("refresh_token:" ++ token.sub) = some token <;>
    ((try simp [h1, h2, h3]); (try omega); (try rw [if_neg (by omega)]))

/-- C2 (amended): refresh-token verification returns a result exactly when
the token decodes as an unexpired refresh-type token that equals the value
currently stored for its subject; and after issuing token A and then
token B for the same email, verifying A fails whenever A and B are
distinct token strings (e.g. issued at different seconds), while
verifying B (before its expiry) succeeds. -/
theorem verify_refresh_token_amended (store : RedisTokens) (email : String)
    (t1 t2 nowA nowB now : ℕ) (token : Token) :
    (verify_refresh_token token store now =
      if token.typ = "refresh" ∧ now < token.exp ∧
          store ("refresh_token:" ++ token.sub) = some token
      then some token.sub else none) ∧
    ((create_refresh_token email t1 store).1 ≠
        (create_refresh_token email t2 (create_refresh_token email t1 store).2).1 →
      verify_refresh_token (create_refresh_token email t1 store).1
        (create_refresh_token email t2 (create_refresh_token email t1 store).2).2 nowA =
        none) ∧
    (nowB < t2 + REFRESH_TOKEN_EXPIRE_SECONDS →
      verify_refresh_token
        (create_refresh_token email t2 (create_refresh_token email t1 store).2).1
        (create_refresh_token email t2 (create_refresh_token email t1 store).2).2 nowB =
        some email) := by
  refine ⟨verify_refresh_token_eq token store now, ?_, ?_⟩
  · intro hne
    simp only [create_refresh_token, create_token_internal] at hne ⊢
    simp only [ne_eq, Token.mk.injEq, true_and, and_true] at hne
    rw [verify_refresh_token_eq]
    rw [if_neg]
    rintro ⟨-, -, hs⟩
    simp at hs
    omega
  · intro hexp
    simp only [create_refresh_token, create_token_internal]
    rw [verify_refresh_token_eq]
    simp [hexp]

/-- C2 witness: at concrete issue times 0 and 10 the two tokens differ,
verifying the first fails and verifying the second succeeds. -/
theorem verify_refresh_token_amended_witness :
    (create_refresh_token "usr" 0 exStore0).1 ≠
      (create_refresh_token "usr" 10 (create_refresh_token "usr" 0 exStore0).2).1 ∧
    verify_refresh_token (create_refresh_token "usr" 0 exStore0).1
      (create_refresh_token "usr" 10 (create_refresh_token "usr" 0 exStore0).2).2 3600 =
      none ∧
    3600 < 10 + REFRESH_TOKEN_EXPIRE_SECONDS ∧
    verify_refresh_token
      (create_refresh_token "usr" 10 (create_refresh_token "usr" 0 exStore0).2).1
      (create_refresh_token "usr" 10 (create_refresh_token "usr" 0 exStore0).2).2 3600 =
      some "usr" := by
  have h := verify_refresh_token_amended exStore0 "usr" 0 10 3600 3600 3600
    ⟨"usr", 0, "refresh"⟩
  have hne : (create_refresh_token "usr" 0 exStore0).1 ≠
      (create_refresh_token "usr" 10 (create_refresh_token "usr" 0 exStore0).2).1 := by
    decide
  exact ⟨hne, h.2.1 hne, by decide, h.2.2 (by decide)⟩

/-- C3: for every database state, user and existing article, `toggle_like`
flips on the existence of a like row: with no like row it appends one,
sets the article's like count to old+1 and returns liked with the new
count; with a like row present it deletes that row, sets the count to
max(0, old−1) — never below 0 — and returns not-liked with the new
count. -/
theorem toggle_like_correct (db : NewsDB) (nid uid : ℕ) (news : News)
    (hfound : get_news_by_id db nid = some news) :
    toggle_like db nid uid = some (
      match db.behaviors.find? (isLikeRow uid nid) with
      | some _ =>
        ({ news := updateNewsCount db.news nid (max 0 (news.like_count - 1)),
           behaviors := db.behaviors.eraseP (isLikeRow uid nid) },
         { news_id := nid, liked := false, like_count := max 0 (news.like_count - 1) })
      | none =>
        ({ news := updateNewsCount db.news nid (news.like_count + 1),
           behaviors := db.behaviors ++ [⟨uid, nid, "like"⟩] },
         { news_id := nid, liked := true, like_count := news.like_count + 1 })) ∧
    (0 : ℤ) ≤ max 0 (news.like_count - 1) := by
  constructor
  · unfold toggle_like
    rw [hfound]
    cases hf : db.behaviors.find? (isLikeRow uid nid) <;> simp [hf]
  · exact le_max_left 0 _

/-- C3 witness: toggling an unliked article in a concrete database creates
the like row and returns liked with count 1. -/
theorem toggle_like_correct_witness :
    toggle_like exDB 7 3 = some (
      match exDB.behaviors.find? (isLikeRow 3 7) with
      | some _ =>
        ({ news := updateNewsCount exDB.news 7 (max 0 (exNewsA.like_count - 1)),
           behaviors := exDB.behaviors.eraseP (isLikeRow 3 7) },
         { news_id := 7, liked := false, like_count := max 0 (exNewsA.like_count - 1) })
      | none =>
        ({ news := updateNewsCount exDB.news 7 (exNewsA.like_count + 1),
           behaviors := exDB.behaviors ++ [⟨3, 7, "like"⟩] },
         { news_id := 7, liked := true, like_count := exNewsA.like_count + 1 })) ∧
    (0 : ℤ) ≤ max 0 (exNewsA.like_count - 1) :=
  toggle_like_correct exDB 7 3 exNewsA rfl

/-- Every survivor of the deduplication has an id outside the seen set. -/
theorem dedupAux_not_seen (l : List (ℕ × String)) :
    ∀ (seen : List ℕ), ∀ x ∈ dedupAux seen l, x.1 ∉ seen := by
  induction l with
  | nil => intro seen x hx; simp [dedupAux] at hx
  | cons c rest ih =>
    intro seen x hx
    unfold dedupAux at hx
    by_cases hc : c.1 ∈ seen
    · rw [if_pos hc] at hx
      exact ih seen x hx
    · rw [if_neg hc] at hx
      rcases List.mem_cons.mp hx with rfl | hx'
      · exact hc
      · intro hmem
        exact ih (c.1 :: seen) x hx' (List.mem_cons_of_mem _ hmem)

/-- The deduplicated list is a sublist of the input (order preserved). -/
theorem dedupAux_sublist (l : List (ℕ × String)) :
    ∀ seen : List ℕ, (dedupAux seen l).Sublist l := by
  induction l with
  | nil => intro seen; simp [dedupAux]
  | cons c rest ih =>
    intro seen
    unfold dedupAux
    by_cases hc : c.1 ∈ seen
    · rw [if_pos hc]
      exact (ih seen).cons c
    · rw [if_neg hc]
      exact (ih (c.1 :: seen)).cons₂ c

/-- Every survivor is the first occurrence of its news id in the input. -/
theorem dedupAux_first (l : List (ℕ × String)) :
    ∀ seen : List ℕ, ∀ x ∈ dedupAux seen l,
      l.find? (fun y => y.1 == x.1) = some x := by
  induction l with
  | nil => intro seen x hx; simp [dedupAux] at hx
  | cons c rest ih =>
    intro seen x hx
    unfold dedupAux at hx
    by_cases hc : c.1 ∈ seen
    · rw [if_pos hc] at hx
      have hxs := dedupAux_not_seen rest seen x hx
      have hne : (c.1 == x.1) = false := by
        refine beq_eq_false_iff_ne.mpr ?_
        intro heq
        exact hxs (heq ▸ hc)
      rw [List.find?_cons, hne]
      exact ih seen x hx
    · rw [if_neg hc] at hx
      rcases List.mem_cons.mp hx with rfl | hx'
      · rw [List.find?_cons]
        simp
      · have hxs := dedupAux_not_seen rest (c.1 :: seen) x hx'
        have hne : (c.1 == x.1) = false := by
          refine beq_eq_false_iff_ne.mpr ?_
          intro heq
          exact hxs (heq ▸ List.mem_cons_self c.1 seen)
        rw [List.find?_cons, hne]
        exact ih (c.1 :: seen) x hx'

/-- The surviving news ids contain no duplicates. -/
theorem dedupAux_nodup (l : List (ℕ × String)) :
    ∀ seen : List ℕ, ((dedupAux seen l).map Prod.fst).Nodup := by
  induction l with
  | nil => intro seen; simp [dedupAux]
  | cons c rest ih =>
    intro seen
    unfold dedupAux
    by_cases hc : c.1 ∈ seen
    · rw [if_pos hc]
      exact ih seen
    · rw [if_neg hc]
      refine List.nodup_cons.mpr ⟨?_, ih (c.1 :: seen)⟩
      intro hmem
      rcases List.mem_map.mp hmem with ⟨y, hy, hyfst⟩
      exact dedupAux_not_seen rest (c.1 :: seen) y hy
        (hyfst ▸ List.mem_cons_self c.1 seen)

/-- Every input id is either already seen or survives deduplication. -/
theorem dedupAux_covers (l : List (ℕ × String)) :
    ∀ seen : List ℕ, ∀ x ∈ l,
      x.1 ∈ seen ∨ x.1 ∈ (dedupAux seen l).map Prod.fst := by
  induction l with
  | nil => intro seen x hx; simp at hx
  | cons c rest ih =>
    intro seen x hx
    unfold dedupAux
    by_cases hc : c.1 ∈ seen
    · rw [if_pos hc]
      rcases List.mem_cons.mp hx with rfl | hx'
      · exact Or.inl hc
      · exact ih seen x hx'
    · rw [if_neg hc]
      rcases List.mem_cons.mp hx with rfl | hx'
      · exact Or.inr (by simp)
      · rcases ih (c.1 :: seen) x hx' with hs | hm
        · rcases List.mem_cons.mp hs with heq | hseen
          · exact Or.inr (by simp [heq])
          · exact Or.inl hseen
        · exact Or.inr (List.mem_cons_of_mem _ hm)

/-- C6: deduplication keeps exactly the first occurrence per news id — the
surviving ids are pairwise distinct, survivors keep their input order
(sublist), each survivor is the first occurrence of its id in the input,
and every input id survives exactly once, so an article recalled by two
strategies appears exactly once. -/
theorem deduplicate_candidates_correct (l : List (ℕ × String)) :
    ((deduplicate_candidates l).map Prod.fst).Nodup ∧
    (deduplicate_candidates l).Sublist l ∧
    (∀ x ∈ deduplicate_candidates l, l.find? (fun y => y.1 == x.1) = some x) ∧
    (∀ x ∈ l, x.1 ∈ (deduplicate_candidates l).map Prod.fst) ∧
    (∀ x ∈ l, ((deduplicate_candidates l).map Prod.fst).count x.1 = 1) := by
  refine ⟨dedupAux_nodup l [], dedupAux_sublist l [], dedupAux_first l [], ?_, ?_⟩
  · intro x hx
    rcases dedupAux_covers l [] x hx with hs | hm
    · simp at hs
    · exact hm
  · intro x hx
    rcases dedupAux_covers l [] x hx with hs | hm
    · simp at hs
    · exact List.count_eq_one_of_mem (dedupAux_nodup l []) hm

/-- C6 witness: in a concrete candidate list where article 1 is recalled by
two strategies, its first occurrence survives and its id appears exactly
once. -/
theorem deduplicate_candidates_correct_witness :
    ((deduplicate_candidates exDedup).map Prod.fst).Nodup ∧
    exDedup.find? (fun y => y.1 == 1) = some (1, "featured") ∧
    ((deduplicate_candidates exDedup).map Prod.fst).count 1 = 1 :=
  ⟨(deduplicate_candidates_correct exDedup).1,
   (deduplicate_candidates_correct exDedup).2.2.1 (1, "featured") (by decide),
   (deduplicate_candidates_correct exDedup).2.2.2.2 (1, "hot") (by decide)⟩

/-- Closed form of the batch loop: counters and lists accumulate per-item
contributions; an item raising in the stats update is counted both
processed and failed. -/
theorem batchAux_spec (items : List BatchItem) :
    ∀ (idx : ℕ) (st : BatchState),
    batchAux idx items st =
      { processed := st.processed + (items.filter (fun it => !it.add_raises)).length,
        failed := st.failed + (items.filter batchItemFails).length,
        failed_indices := st.failed_indices ++
          ((items.enumFrom idx).filter (fun p => batchItemFails p.2)).map Prod.fst,
        pending_rows := st.pending_rows ++
          ((items.filter (fun it => !it.add_raises)).map BatchItem.payload) } := by
  induction items with
  | nil => intro idx st; simp [batchAux, List.enumFrom]
  | cons it rest ih =>
    intro idx st
    unfold batchAux
    rcases ha : it.add_raises with _ | _ <;> rcases hs : it.stats_raises with _ | _ <;>
      simp only [Bool.false_eq_true, if_false, if_true, ih, List.filter_cons,
        List.enumFrom, batchItemFails, ha, hs, Bool.false_or, Bool.true_or,
        Bool.or_false, Bool.or_true, Bool.not_false, Bool.not_true] <;>
      simp [List.append_assoc] <;> omega

/-- Counting helper: processed plus failed equals the batch size plus the
number of items that failed only in the stats update. -/
theorem batch_count_lemma (items : List BatchItem) :
    (items.filter (fun it => !it.add_raises)).length +
      (items.filter batchItemFails).length =
    items.length + (items.filter (fun it => !it.add_raises && it.stats_raises)).length := by
  induction items with
  | nil => simp
  | cons it rest ih =>
    rcases ha : it.add_raises with _ | _ <;> rcases hs : it.stats_raises with _ | _ <;>
      simp [List.filter_cons, batchItemFails, ha, hs] <;> omega

/-- C8 counterexample: a single-item batch whose row is persisted but whose
real-time-stats update raises is counted both processed and failed, so
total_processed + total_failed = 2 exceeds the batch size 1. -/
theorem batch_tracking_sum_counterexample :
    (track_behaviors_batch [⟨5, false, true⟩]).total_processed = 1 ∧
    (track_behaviors_batch [⟨5, false, true⟩]).total_failed = 1 ∧
    (track_behaviors_batch [⟨5, false, true⟩]).success = false ∧
    (track_behaviors_batch [⟨5, false, true⟩]).failed_indices = [0] ∧
    (track_behaviors_batch [⟨5, false, true⟩]).total_processed +
        (track_behaviors_batch [⟨5, false, true⟩]).total_failed ≠
      ([⟨5, false, true⟩] : List BatchItem).length := by
  refine ⟨rfl, rfl, rfl, rfl, by decide⟩

/-- C8 (amended): batch tracking isolates per-item failures — each item is
handled independently; success holds iff no item raised; total_processed
counts the items whose row was persisted and total_failed the items that
raised anywhere; an item persisted before its stats update raised is
counted in both, so processed + failed equals the batch size plus the
number of such items (and equals the batch size exactly when every
failure occurred before the item was counted processed); failed_indices
lists exactly the 0-based indices of the items that raised, in order; the
commit happens iff at least one item was processed, and commits every
persisted row. -/
theorem track_behaviors_batch_amended (items : List BatchItem) :
    ((track_behaviors_batch items).success = true ↔
      ∀ it ∈ items, it.add_raises = false ∧ it.stats_raises = false) ∧
    (track_behaviors_batch items).total_processed =
      (items.filter (fun it => !it.add_raises)).length ∧
    (track_behaviors_batch items).total_failed =
      (items.filter batchItemFails).length ∧
    (track_behaviors_batch items).total_processed +
        (track_behaviors_batch items).total_failed =
      items.length +
        (items.filter (fun it => !it.add_raises && it.stats_raises)).length ∧
    (track_behaviors_batch items).failed_indices =
      ((items.enumFrom 0).filter (fun p => batchItemFails p.2)).map Prod.fst ∧
    ((track_behaviors_batch items).committed = true ↔
      0 < (track_behaviors_batch items).total_processed) ∧
    (track_behaviors_batch items).committed_rows =
      (if 0 < (track_behaviors_batch items).total_processed then
        (items.filter (fun it => !it.add_raises)).map BatchItem.payload
       else []) := by
  unfold track_behaviors_batch
  rw [batchAux_spec items 0 ⟨0, 0, [], []⟩]
  refine ⟨?_, by simp, by simp, ?_, by simp, by simp, by simp⟩
  · simp only [Nat.zero_add, beq_iff_eq, List.length_eq_zero, List.filter_eq_nil_iff]
    constructor
    · intro h it hit
      have := h it hit
      simp [batchItemFails] at this
      exact this
    · intro h it hit
      simp [batchItemFails, (h it hit).1, (h it hit).2]
  · simpa using batch_count_lemma items

/-- C9: a category_id equal to 0 is treated as if no category filter were
supplied — in news search, trending queries, and every recommendation
recall primitive the category restriction is applied only when the value
is truthy, so category_id = 0 returns results from all categories. -/
theorem category_id_zero_unfiltered (db : List News) (r : NewsSearchRequest)
    (tr : String) (lim : ℕ) (now : ℤ) (profile : UserProfileM) :
    search_news { r with category_id := some 0 } db =
      search_news { r with category_id := none } db ∧
    get_trending_news db (some 0) tr lim now = get_trending_news db none tr lim now ∧
    recall_hot_news db (some 0) lim now = recall_hot_news db none lim now ∧
    recall_featured_news db (some 0) lim = recall_featured_news db none lim ∧
    recall_fresh_news db (some 0) lim = recall_fresh_news db none lim ∧
    recall_content_based profile db (some 0) lim now =
      recall_content_based profile db none lim now := by
  have hpf : passes_filters { r with category_id := some 0 } =
      passes_filters { r with category_id := none } := by
    funext n
    simp [passes_filters, truthyNat]
  refine ⟨?_, ?_, ?_, ?_, ?_, ?_⟩ <;>
    simp [search_news, orderNews, hpf, get_trending_news,
      recall_hot_news, recall_featured_news, recall_fresh_news,
      recall_content_based, truthyNat]

/-- The scan returns an index below any bound that dominates the running
best index and the scanned range. -/
theorem selectAux_lt (counts : CatCounts) :
    ∀ (l : List Cand) (bs : ℚ) (bi idx K : ℕ),
      bi < K → idx + l.length ≤ K → selectAux counts l bs bi idx < K := by
  intro l
  induction l with
  | nil =>
    intro bs bi idx K hbi _
    simpa [selectAux] using hbi
  | cons c rest ih =>
    intro bs bi idx K hbi hlen
    simp only [List.length_cons] at hlen
    unfold selectAux
    split
    · exact ih (mmr_score counts c) idx (idx + 1) K (by omega) (by omega)
    · exact ih bs bi (idx + 1) K hbi (by omega)

/-- Specification of the scan: either no scanned candidate beats the
running best score and the running best index is returned, or the result
points at a scanned candidate that beats the running best score and is
maximal among the scanned candidates. -/
theorem selectAux_spec (counts : CatCounts) :
    ∀ (l : List Cand) (bs : ℚ) (bi idx : ℕ),
      ((∀ c ∈ l, mmr_score counts c ≤ bs) ∧ selectAux counts l bs bi idx = bi) ∨
      (∃ j, ∃ hj : j < l.length, selectAux counts l bs bi idx = idx + j ∧
        bs < mmr_score counts (l.get ⟨j, hj⟩) ∧
        ∀ c ∈ l, mmr_score counts c ≤ mmr_score counts (l.get ⟨j, hj⟩)) := by
  intro l
  induction l with
  | nil =>
    intro bs bi idx
    left
    exact ⟨by simp, rfl⟩
  | cons c rest ih =>
    intro bs bi idx
    unfold selectAux
    by_cases hc : bs < mmr_score counts c
    · rw [if_pos hc]
      right
      rcases ih (mmr_score counts c) idx (idx + 1) with ⟨hall, heq⟩ | ⟨j, hj, heq, hgt, hmax⟩
      · refine ⟨0, by simp, by simpa using heq, by simpa using hc, ?_⟩
        intro x hx
        rcases List.mem_cons.mp hx with rfl | hx'
        · simp
        · simpa using hall x hx'
      · refine ⟨j + 1, by simpa using Nat.succ_lt_succ hj, by omega, ?_, ?_⟩
        · exact hc.trans hgt
        · intro x hx
          rcases List.mem_cons.mp hx with rfl | hx'
          · exact le_of_lt hgt
          · exact hmax x hx'
    · rw [if_neg hc]
      rcases ih bs bi (idx + 1) with ⟨hall, heq⟩ | ⟨j, hj, heq, hgt, hmax⟩
      · left
        refine ⟨?_, heq⟩
        intro x hx
        rcases List.mem_cons.mp hx with rfl | hx'
        · exact le_of_not_lt hc
        · exact hall x hx'
      · right
        refine ⟨j + 1, by simpa using Nat.succ_lt_succ hj, by omega, hgt, ?_⟩
        intro x hx
        rcases List.mem_cons.mp hx with rfl | hx'
        · exact (le_of_not_lt hc).trans (le_of_lt hgt)
        · exact hmax x hx'

/-- Removing the element at a valid index and re-consing it permutes the
list. -/
theorem get_cons_eraseIdx_perm {α : Type} :
    ∀ (l : List α) (i : ℕ) (h : i < l.length),
      l.Perm (l.get ⟨i, h⟩ :: l.eraseIdx i) := by
  intro l
  induction l with
  | nil => intro i h; simp at h
  | cons c rest ih =>
    intro i h
    cases i with
    | zero => simp
    | succ j =>
      have hj : j < rest.length := by simpa using h
      show (c :: rest).Perm (rest.get ⟨j, hj⟩ :: c :: rest.eraseIdx j)
      exact ((ih j hj).cons c).trans
        (List.Perm.swap (rest.get ⟨j, hj⟩) c (rest.eraseIdx j))

/-- With enough fuel (one unit per candidate), the MMR loop emits a
permutation of its input that satisfies the amended greedy selection
relation. -/
theorem mmrLoopFuel_spec :
    ∀ (fuel : ℕ) (l : List Cand) (counts : CatCounts), l.length ≤ fuel →
      (mmrLoopFuel fuel l counts).Perm l ∧
      GreedySelA counts l (mmrLoopFuel fuel l counts) := by
  intro fuel
  induction fuel with
  | zero =>
    intro l counts hlen
    have hl : l = [] := List.length_eq_zero.mp (Nat.le_zero.mp hlen)
    subst hl
    exact ⟨List.Perm.refl _, GreedySelA.nil counts⟩
  | succ fuel ih =>
    intro l counts hlen
    cases l with
    | nil => exact ⟨List.Perm.refl _, GreedySelA.nil counts⟩
    | cons c₀ rest =>
      have hi : selectBest counts (c₀ :: rest) < (c₀ :: rest).length := by
        unfold selectBest
        exact selectAux_lt counts (c₀ :: rest) (-1) 0 0 _ (by simp) (by simp)
      have hgetD : (c₀ :: rest).getD (selectBest counts (c₀ :: rest)) c₀ =
          (c₀ :: rest).get ⟨selectBest counts (c₀ :: rest), hi⟩ :=
        List.getD_eq_getElem (c₀ :: rest) c₀ hi
      have hloop : mmrLoopFuel (fuel + 1) (c₀ :: rest) counts =
          (c₀ :: rest).get ⟨selectBest counts (c₀ :: rest), hi⟩ ::
            mmrLoopFuel fuel ((c₀ :: rest).eraseIdx (selectBest counts (c₀ :: rest)))
              (countsBump counts
                ((c₀ :: rest).get ⟨selectBest counts (c₀ :: rest), hi⟩).category_id) := by
        conv_lhs => rw [mmrLoopFuel]
        rw [hgetD]
      have hperm0 := get_cons_eraseIdx_perm (c₀ :: rest) (selectBest counts (c₀ :: rest)) hi
      have hlen' : ((c₀ :: rest).eraseIdx (selectBest counts (c₀ :: rest))).length ≤ fuel := by
        have hL := hperm0.length_eq
        simp only [List.length_cons] at hL hlen
        omega
      obtain ⟨ihperm, ihgreedy⟩ := ih ((c₀ :: rest).eraseIdx (selectBest counts (c₀ :: rest)))
        (countsBump counts
          ((c₀ :: rest).get ⟨selectBest counts (c₀ :: rest), hi⟩).category_id) hlen'
      refine ⟨?_, ?_⟩
      · rw [hloop]
        exact (ihperm.cons _).trans hperm0.symm
      · rw [hloop]
        refine GreedySelA.step counts (c₀ :: rest) _ (selectBest counts (c₀ :: rest)) hi
          ?_ ihgreedy
        rcases selectAux_spec counts (c₀ :: rest) (-1) 0 0 with
          ⟨hall, heq⟩ | ⟨j, hj, heq, hgt, hmax⟩
        · right
          refine ⟨?_, ?_⟩
          · intro r hr
            simpa using hall r hr
          · unfold selectBest
            exact heq
        · left
          have hij : (⟨selectBest counts (c₀ :: rest), hi⟩ :
              Fin (c₀ :: rest).length) = ⟨j, hj⟩ := by
            refine Fin.ext ?_
            show selectBest counts (c₀ :: rest) = j
            unfold selectBest
            omega
          rw [hij]
          exact hmax

/-- C5 (amended): diversity re-ranking returns the candidate list unchanged
when it has at most 10 candidates; otherwise it emits a permutation of
the candidates obtained by repeatedly selecting a remaining candidate
maximizing 0.5×score − 0.5×(0.1×category-count) — except that when every
remaining candidate's MMR score is at most −1 (the scan's initial best
score, which only strict improvements replace) the first remaining
candidate is selected instead — appending it and bumping its category
count until all candidates are placed. -/
theorem diversity_reranking_amended (scored : List Cand) :
    (apply_diversity_reranking scored).Perm scored ∧
    (if scored.length ≤ 10 then apply_diversity_reranking scored = scored
     else GreedySelA [] scored (apply_diversity_reranking scored)) := by
  unfold apply_diversity_reranking
  by_cases h : scored.length ≤ 10
  · rw [if_pos h, if_pos h]
    exact ⟨List.Perm.refl _, rfl⟩
  · rw [if_neg h, if_neg h]
    exact ⟨(mmrLoopFuel_spec scored.length scored [] le_rfl).1,
           (mmrLoopFuel_spec scored.length scored [] le_rfl).2⟩

/-- Inversion of one greedy step: a nonempty output starts with a
maximizer of the remaining candidates, and the tail is produced from the
rest. -/
theorem greedySel_cons_inv {counts : CatCounts} {remaining out : List Cand}
    (hG : GreedySel counts remaining out) :
    ∀ {o₁ : Cand} {tl : List Cand}, out = o₁ :: tl →
      ∃ i, ∃ hi : i < remaining.length, remaining.get ⟨i, hi⟩ = o₁ ∧
        (∀ r ∈ remaining, mmr_score counts r ≤ mmr_score counts o₁) ∧
        GreedySel (countsBump counts o₁.category_id) (remaining.eraseIdx i) tl := by
  cases hG with
  | nil =>
    intro o₁ tl h
    exact absurd h (by simp)
  | step _ _ rest i hi hmax htail =>
    intro o₁ tl h
    injection h with h1 h2
    subst h1
    subst h2
    exact ⟨i, hi, rfl, hmax, htail⟩

/-- Inversion of two greedy steps: the second emitted candidate maximizes
the MMR score over what remains after the first step. -/
theorem greedySel_second_step (counts : CatCounts) (remaining : List Cand)
    (out₁ out₂ : Cand) (rest : List Cand)
    (hG : GreedySel counts remaining (out₁ :: out₂ :: rest)) :
    ∃ i, ∃ hi : i < remaining.length, remaining.get ⟨i, hi⟩ = out₁ ∧
      ∀ r ∈ remaining.eraseIdx i,
        mmr_score (countsBump counts out₁.category_id) r ≤
          mmr_score (countsBump counts out₁.category_id) out₂ := by
  rcases greedySel_cons_inv hG rfl with ⟨i, hi, hget, hmax1, htail⟩
  refine ⟨i, hi, hget, ?_⟩
  rcases greedySel_cons_inv htail rfl with ⟨i₂, hi₂, hget₂, hmax₂, -⟩
  intro r hr
  exact hmax₂ r hr

/-- C5 counterexample: on a score-sorted list of twelve candidates, all of
score −2 with the third in a second category, every MMR score is at most
−1 from the first step on, so the scan's strict-improvement test against
its initial best score −1 never fires and index 0 is always picked; at
the second step the picked candidate is strictly worse than the
second-category candidate, so the output is not a greedy-maximizing
selection as the claim states. -/
theorem diversity_reranking_greedy_counterexample :
    10 < exC5.length ∧ sortedByScoreDesc exC5 = true ∧
    ¬ GreedySel [] exC5 (apply_diversity_reranking exC5) := by
  have hout : apply_diversity_reranking exC5 = exC5 := by
    norm_num [apply_diversity_reranking, exC5, mmrLoopFuel, selectBest, selectAux,
      mmr_score, countsGet, countsBump]
  refine ⟨by norm_num [exC5], by norm_num [sortedByScoreDesc, exC5], ?_⟩
  rw [hout]
  intro hG
  have hshape : exC5 = (⟨1, -2⟩ : Cand) :: (⟨1, -2⟩ : Cand) ::
      [(⟨2, -2⟩ : Cand), ⟨1, -2⟩, ⟨1, -2⟩, ⟨1, -2⟩, ⟨1, -2⟩, ⟨1, -2⟩,
       ⟨1, -2⟩, ⟨1, -2⟩, ⟨1, -2⟩, ⟨1, -2⟩] := rfl
  rw [hshape] at hG
  obtain ⟨i, hi, hget, hmax⟩ := greedySel_second_step _ _ _ _ _ hG
  have hmem : (⟨2, -2⟩ : Cand) ∈ ((⟨1, -2⟩ : Cand) :: (⟨1, -2⟩ : Cand) ::
      [(⟨2, -2⟩ : Cand), ⟨1, -2⟩, ⟨1, -2⟩, ⟨1, -2⟩, ⟨1, -2⟩, ⟨1, -2⟩,
       ⟨1, -2⟩, ⟨1, -2⟩, ⟨1, -2⟩, ⟨1, -2⟩]) := by decide
  have hperm := get_cons_eraseIdx_perm ((⟨1, -2⟩ : Cand) :: (⟨1, -2⟩ : Cand) ::
      [(⟨2, -2⟩ : Cand), ⟨1, -2⟩, ⟨1, -2⟩, ⟨1, -2⟩, ⟨1, -2⟩, ⟨1, -2⟩,
       ⟨1, -2⟩, ⟨1, -2⟩, ⟨1, -2⟩, ⟨1, -2⟩]) i hi
  have h2 := hperm.mem_iff.mp hmem
  rcases List.mem_cons.mp h2 with heq | h3
  · rw [hget] at heq
    exact absurd heq (by decide)
  · have hle := hmax _ h3
    norm_num [mmr_score, countsGet, countsBump] at hle
